import Mathlib

/-!
Shallow embedding of the rustls handshake-transcript hash (`src/hash_hs.rs`)
and the record framing layer (`src/msgs/message.rs`, `src/msgs/ccs.rs`).

Bytes are modelled as `Nat` values (u8 on the wire), byte strings as
`List Nat`.  The `ring` digest primitive is external to the repository; per
the specification it is an opaque incremental hash, so a digest context is
modelled as the algorithm id together with the exact byte string absorbed so
far, and finalisation applies an arbitrary hash function `H` supplied as a
parameter.  Theorems quantify over `H`, so they hold for every concrete
digest primitive.
-/

/-- A digest primitive: maps an algorithm id and an absorbed byte string to
a digest value.  Supplied as a parameter wherever the Rust code calls
`Context::finish`. -/
abbrev HashFn := Nat → List Nat → List Nat

/-- Incremental digest context (`ring::digest::Context`): the algorithm it
was created for, plus the bytes fed to `update` so far.  `clone` is
structural copying, which is what the spec requires of the primitive. -/
structure DigestContext where
  alg : Nat
  data : List Nat
  deriving DecidableEq, Repr

/-- `digest::Context::new(alg)`. -/
def DigestContext.new (alg : Nat) : DigestContext :=
  ⟨alg, []⟩

/-- `Context::update(buf)`: absorb more bytes. -/
def DigestContext.update (c : DigestContext) (buf : List Nat) : DigestContext :=
  ⟨c.alg, c.data ++ buf⟩

/-- `Context::algorithm()`. -/
def DigestContext.algorithm (c : DigestContext) : Nat :=
  c.alg

/-- `Context::finish()`, for the digest primitive `H`. -/
def DigestContext.finish (H : HashFn) (c : DigestContext) : List Nat :=
  H c.alg c.data

/-- `HandshakeHash` (hash_hs.rs): running hash of the handshake transcript. -/
structure HandshakeHash where
  ctx : Option DigestContext
  client_auth_enabled : Bool
  buffer : List Nat
  override_buffer : Option (List Nat)
  deriving DecidableEq, Repr

/-- `HandshakeHash::new()`. -/
def HandshakeHash.new : HandshakeHash :=
  ⟨none, false, [], none⟩

/-- `HandshakeHash::new_override(static_buffer)`. -/
def HandshakeHash.new_override (static_buffer : List Nat) : HandshakeHash :=
  ⟨none, false, [], some static_buffer⟩

/-- `HandshakeHash::set_client_auth_enabled()` (debug-asserts `ctx.is_none()`;
the state change itself is unconditional). -/
def HandshakeHash.set_client_auth_enabled (h : HandshakeHash) : HandshakeHash :=
  { h with client_auth_enabled := true }

/-- `HandshakeHash::abandon_client_auth()`: drop retention and drain the
buffer. -/
def HandshakeHash.abandon_client_auth (h : HandshakeHash) : HandshakeHash :=
  { h with client_auth_enabled := false, buffer := [] }

/-- `HandshakeHash::start_hash(alg)`: returns the updated state together with
the `bool` result.  If a context already exists with a different algorithm,
returns `false` and changes nothing; with the same algorithm returns `true`
and changes nothing.  Otherwise creates the context, feeds it the buffered
bytes, and drains the buffer unless client auth needs it. -/
def HandshakeHash.start_hash (h : HandshakeHash) (alg : Nat) : HandshakeHash × Bool :=
  match h.ctx with
  | some c =>
      if c.algorithm ≠ alg then (h, false) else (h, true)
  | none =>
      let c := (DigestContext.new alg).update h.buffer
      let h1 := { h with ctx := some c }
      let h2 := if ¬h1.client_auth_enabled then { h1 with buffer := [] } else h1
      (h2, true)

/-- `HandshakeHash::update_raw(buf)`: feed the context when present; append
to the buffer when no context exists yet or client auth retention is on. -/
def HandshakeHash.update_raw (h : HandshakeHash) (buf : List Nat) : HandshakeHash :=
  let h1 :=
    match h.ctx with
    | some c => { h with ctx := some (c.update buf) }
    | none => h
  if h1.ctx.isNone || h1.client_auth_enabled then
    { h1 with buffer := h1.buffer ++ buf }
  else
    h1

/-- `HandshakeHash::get_hash_given(hash, extra)`: non-mutating what-if
digest. -/
def HandshakeHash.get_hash_given (H : HashFn) (h : HandshakeHash) (hash : Nat)
    (extra : List Nat) : List Nat :=
  match h.ctx with
  | none => DigestContext.finish H (((DigestContext.new hash).update h.buffer).update extra)
  | some c => DigestContext.finish H (c.update extra)

/-- Modelled from the spec: `HandshakeMessagePayload::build_handshake_hash`
composed with `get_encoding` (msgs/handshake.rs is not among the provided
sources).  The spec describes it as the canonical wire encoding of a
synthetic transcript-hash-marker handshake message wrapping the digest
bytes; we model it as the standard TLS handshake framing: one type byte
(message_hash) followed by a 3-byte big-endian length and the digest bytes.
The theorems below use it on both sides of every comparison, so they do not
depend on this choice of framing. -/
def build_handshake_hash_encoding (hash : List Nat) : List Nat :=
  254 :: (hash.length / 65536 % 256) :: (hash.length / 256 % 256) :: (hash.length % 256) :: hash

/-- `HandshakeHash::rollup_for_hrr()`: `none` models the `unwrap` panic when
no context is pinned.  Otherwise: finalize the old context, restart a fresh
context for the same algorithm, and absorb the synthetic marker message. -/
def HandshakeHash.rollup_for_hrr (H : HashFn) (h : HandshakeHash) : Option HandshakeHash :=
  match h.ctx with
  | none => none
  | some c =>
      let old_hash := DigestContext.finish H c
      let h1 := { h with ctx := some (DigestContext.new c.algorithm) }
      some (h1.update_raw (build_handshake_hash_encoding old_hash))

/-- `HandshakeHash::get_current_hash()`: `none` models the `unwrap` panic
when no context is pinned. -/
def HandshakeHash.get_current_hash (H : HashFn) (h : HandshakeHash) : Option (List Nat) :=
  h.ctx.map (DigestContext.finish H)

/-- `HandshakeHash::get_current_hash_raw()`. -/
def HandshakeHash.get_current_hash_raw (H : HashFn) (h : HandshakeHash) : Option (List Nat) :=
  match h.override_buffer with
  | some static_buffer => some static_buffer
  | none => h.get_current_hash H

/-- `HandshakeHash::take_handshake_buf()`: move the buffer out (debug-asserts
`client_auth_enabled`). -/
def HandshakeHash.take_handshake_buf (h : HandshakeHash) : List Nat × HandshakeHash :=
  (h.buffer, { h with buffer := [] })

/-- Absorb a list of byte strings in order via `update_raw`. -/
def HandshakeHash.update_raw_all (h : HandshakeHash) (bufs : List (List Nat)) : HandshakeHash :=
  bufs.foldl HandshakeHash.update_raw h

/-! Record framing (`src/msgs/message.rs`) and the ChangeCipherSpec codec
(`src/msgs/ccs.rs`).  The byte-level codec plumbing (`msgs/codec.rs`) and the
wire enums (`msgs/enums.rs`) are not among the provided sources; they are
modelled from the spec's wire-format table: a reader is the list of
still-unread bytes, `u8`/`u16` read big-endian, and each enum decodes its
listed known values, keeping everything else in an `Unknown` variant. -/

/-- Modelled from the spec: `ContentType` (msgs/enums.rs is not under the
provided sources).  The spec's wire table fixes the recognized set
{20 ChangeCipherSpec, 21 Alert, 22 Handshake, 23 ApplicationData,
24 Heartbeat}; every other byte decodes as `Unknown`. -/
inductive ContentType where
  | ChangeCipherSpec
  | Alert
  | Handshake
  | ApplicationData
  | Heartbeat
  | Unknown (v : Nat)
  deriving DecidableEq, Repr

/-- Wire value of a content type. -/
def ContentType.get_u8 : ContentType → Nat
  | .ChangeCipherSpec => 20
  | .Alert => 21
  | .Handshake => 22
  | .ApplicationData => 23
  | .Heartbeat => 24
  | .Unknown v => v

/-- Decode a content type byte. -/
def ContentType.of_u8 (v : Nat) : ContentType :=
  if v = 20 then .ChangeCipherSpec
  else if v = 21 then .Alert
  else if v = 22 then .Handshake
  else if v = 23 then .ApplicationData
  else if v = 24 then .Heartbeat
  else .Unknown v

/-- True on the five recognized content types, false on `Unknown`. -/
def ContentType.known : ContentType → Bool
  | .Unknown _ => false
  | _ => true

/-- Modelled from the spec: `ProtocolVersion` (msgs/enums.rs is not under
the provided sources).  The provided sources name the variants `TLSv1_2`,
`TLSv1_3` and `Unknown(u16)`; the wire values 0x0303 and 0x0304 are the
standard ones.  Every other two-byte value decodes as `Unknown`. -/
inductive ProtocolVersion where
  | TLSv1_2
  | TLSv1_3
  | Unknown (v : Nat)
  deriving DecidableEq, Repr

/-- Wire value of a protocol version. -/
def ProtocolVersion.get_u16 : ProtocolVersion → Nat
  | .TLSv1_2 => 0x0303
  | .TLSv1_3 => 0x0304
  | .Unknown v => v

/-- Decode a two-byte protocol version value. -/
def ProtocolVersion.of_u16 (v : Nat) : ProtocolVersion :=
  if v = 0x0303 then .TLSv1_2
  else if v = 0x0304 then .TLSv1_3
  else .Unknown v

/-- Modelled from the spec: a codec `Reader` is the list of still-unread
bytes; reading one byte takes the head. -/
def readU8 : List Nat → Option (Nat × List Nat)
  | [] => none
  | b :: r => some (b, r)

/-- Modelled from the spec: two-byte big-endian read (`u16::read`). -/
def readU16 (r : List Nat) : Option (Nat × List Nat) :=
  match readU8 r with
  | none => none
  | some (b1, r1) =>
      match readU8 r1 with
      | none => none
      | some (b2, r2) => some (256 * b1 + b2, r2)

/-- Modelled from the spec: `Reader::sub(len)` takes the next `len` bytes as
a sub-buffer, failing if fewer remain. -/
def readerSub (len : Nat) (r : List Nat) : Option (List Nat × List Nat) :=
  if len ≤ r.length then some (r.take len, r.drop len) else none

/-- Modelled from the spec: one-byte big-endian append (`u8::encode`). -/
def encodeU8 (v : Nat) (acc : List Nat) : List Nat :=
  acc ++ [v % 256]

/-- Modelled from the spec: two-byte big-endian append (`u16::encode`). -/
def encodeU16 (v : Nat) (acc : List Nat) : List Nat :=
  acc ++ [v / 256 % 256, v % 256]

/-- `Payload` (msgs/base.rs): owned raw payload bytes. -/
structure Payload where
  bytes : List Nat
  deriving DecidableEq, Repr

/-- `Payload::read`: take every remaining byte of the reader. -/
def Payload.read (r : List Nat) : Payload :=
  ⟨r⟩

/-- `Payload::encode`: append the bytes verbatim. -/
def Payload.encode (p : Payload) (acc : List Nat) : List Nat :=
  acc ++ p.bytes

/-- `ChangeCipherSpecPayload` (msgs/ccs.rs). -/
structure ChangeCipherSpecPayload where
  deriving DecidableEq, Repr

/-- `ChangeCipherSpecPayload::read`: reads (and discards) one byte of any
value. -/
def ChangeCipherSpecPayload.read (r : List Nat) :
    Option (ChangeCipherSpecPayload × List Nat) :=
  match readU8 r with
  | none => none
  | some (_, r1) => some (⟨⟩, r1)

/-- `ChangeCipherSpecPayload::encode`: emits the single byte 1. -/
def ChangeCipherSpecPayload.encode (_ : ChangeCipherSpecPayload) (acc : List Nat) :
    List Nat :=
  encodeU8 1 acc

/-- The version guard of `OpaqueMessage::read`: true exactly when the
version is the `Unknown` variant and its value masked with 0xff00 differs
from 0x0300 (the Rust `ProtocolVersion::Unknown(ref v) if (v & 0xff00) !=
0x0300` match arm).  Named variants always pass. -/
def ProtocolVersion.outside_0x03 : ProtocolVersion → Bool
  | .Unknown v => v &&& 0xff00 ≠ 0x0300
  | _ => false

/-- `MessageError` (msgs/message.rs). -/
inductive MessageError where
  | TooShortForHeader
  | TooShortForLength
  | IllegalLength
  | IllegalContentType
  | IllegalProtocolVersion
  deriving DecidableEq, Repr

/-- `OpaqueMessage` (msgs/message.rs): a wire record before payload
interpretation. -/
structure OpaqueMessage where
  typ : ContentType
  version : ProtocolVersion
  payload : Payload
  deriving DecidableEq, Repr

/-- `OpaqueMessage::MAX_PAYLOAD`. -/
def OpaqueMessage.MAX_PAYLOAD : Nat := 16384 + 2048

/-- `OpaqueMessage::read`: parse the 5-byte header, validate length, content
type and version, then take exactly `len` payload bytes.  Returns the parsed
record and the unread remainder of the input. -/
def OpaqueMessage.read (r : List Nat) :
    Except MessageError (OpaqueMessage × List Nat) :=
  match readU8 r with
  | none => .error .TooShortForHeader
  | some (tb, r1) =>
      let typ := ContentType.of_u8 tb
      match readU16 r1 with
      | none => .error .TooShortForHeader
      | some (vb, r2) =>
          let version := ProtocolVersion.of_u16 vb
          match readU16 r2 with
          | none => .error .TooShortForHeader
          | some (len, r3) =>
              if len ≥ OpaqueMessage.MAX_PAYLOAD then .error .IllegalLength
              else if typ.known = false then .error .IllegalContentType
              else if ProtocolVersion.outside_0x03 version then .error .IllegalProtocolVersion
              else
                match readerSub len r3 with
                | none => .error .TooShortForLength
                | some (sub, r4) => .ok (⟨typ, version, Payload.read sub⟩, r4)

/-- `OpaqueMessage::encode`: header (type byte, version, payload length as
u16) followed by the payload bytes. -/
def OpaqueMessage.encode (m : OpaqueMessage) : List Nat :=
  m.payload.encode (encodeU16 m.payload.bytes.length (encodeU16 m.version.get_u16 (encodeU8 m.typ.get_u8 [])))

/-- Modelled from the spec: `AlertMessagePayload` (msgs/alert.rs is not
under the provided sources).  The provided sources show its `level` and
`description` fields; both are one-byte wire enums, kept as raw byte
values. -/
structure AlertMessagePayload where
  level : Nat
  description : Nat
  deriving DecidableEq, Repr

/-- Modelled from the spec: `HandshakeMessagePayload` (msgs/handshake.rs is
not under the provided sources).  The provided sources use its `typ` field
and its encoding; the structured body is kept opaque. -/
structure HandshakeMessagePayload where
  typ : Nat
  body : List Nat
  deriving DecidableEq, Repr

/-- Modelled from the spec: `HeartbeatPayload` (msgs/heartbeat.rs is not
under the provided sources); kept opaque. -/
structure HeartbeatPayload where
  body : List Nat
  deriving DecidableEq, Repr

/-- Modelled from the spec: the structured payload codecs the dispatcher
delegates to (`AlertMessagePayload::read`,
`HandshakeMessagePayload::read_version`, `HeartbeatPayload::read` live in
files not under the provided sources).  The spec fixes only their shape —
`decode(bytes) -> Option<Self>` over a reader — so they are parameters, and
the theorems below hold for every choice of them. -/
structure Codecs where
  alertRead : List Nat → Option (AlertMessagePayload × List Nat)
  hsReadVersion : ProtocolVersion → List Nat → Option (HandshakeMessagePayload × List Nat)
  heartbeatRead : List Nat → Option (HeartbeatPayload × List Nat)

/-- The only variant of `crate::error::Error` constructed by this code. -/
inductive Error where
  | CorruptMessagePayload (typ : ContentType)
  deriving DecidableEq, Repr

/-- `MessagePayload` (msgs/message.rs). -/
inductive MessagePayload where
  | Alert (x : AlertMessagePayload)
  | Handshake (x : HandshakeMessagePayload)
  | TLS12EncryptedHandshake (x : Payload)
  | ChangeCipherSpec (x : ChangeCipherSpecPayload)
  | ApplicationData (x : Payload)
  | Heartbeat (x : HeartbeatPayload)
  deriving DecidableEq, Repr

/-- `MessagePayload::new`: dispatch the raw payload bytes to the decoder for
the declared content type.  `ApplicationData` is returned without parsing;
`Handshake` falls back to `TLS12EncryptedHandshake` wrapping the original
bytes when the structured decoder fails; the commented-out strictness check
on leftover reader bytes in the source is omitted, exactly as the source
omits it. -/
def MessagePayload.new (codecs : Codecs) (typ : ContentType) (vers : ProtocolVersion)
    (payload : Payload) : Except Error MessagePayload :=
  let fallback_payload := payload
  let r := payload.bytes
  let parsed : Option MessagePayload :=
    match typ with
    | .ApplicationData => some (.ApplicationData payload)
    | .Alert => (codecs.alertRead r).map (fun p => .Alert p.1)
    | .Handshake =>
        (((codecs.hsReadVersion vers r).map (fun p => MessagePayload.Handshake p.1))).or
          (some (.TLS12EncryptedHandshake fallback_payload))
    | .ChangeCipherSpec =>
        (ChangeCipherSpecPayload.read r).map (fun p => .ChangeCipherSpec p.1)
    | .Heartbeat => (codecs.heartbeatRead r).map (fun p => .Heartbeat p.1)
    | .Unknown _ => none
  match parsed with
  | some m => .ok m
  | none => .error (.CorruptMessagePayload typ)

/-- The state invariant of the transcript engine, relative to the ghost
transcript `t`: the byte strings absorbed since the engine started (or since
the transcript was last discarded by `abandon_client_auth`).  Clause one: no
context means the buffer is the complete transcript.  Clause two: once the
context exists with retention off, the buffer is empty.  Clause three: with
retention on, the buffer is the complete transcript (it grows in parallel
with the context). -/
def HandshakeHash.Inv (h : HandshakeHash) (t : List Nat) : Prop :=
  (h.ctx = none → h.buffer = t) ∧
  (h.ctx ≠ none → h.client_auth_enabled = false → h.buffer = []) ∧
  (h.client_auth_enabled = true → h.buffer = t)

/-- A concrete instantiation of the collaborator codecs, used in the
closed-form witnesses: alerts are two bytes, handshake structured decoding
always fails (the TLS 1.2 encrypted-handshake situation), heartbeats are one
byte followed by anything. -/
def sampleCodecs : Codecs where
  alertRead r :=
    match r with
    | l :: d :: rest => some (⟨l, d⟩, rest)
    | _ => none
  hsReadVersion _ _ := none
  heartbeatRead r :=
    match r with
    | b :: rest => some (⟨[b]⟩, rest)
    | _ => none

/-! Helper lemmas. -/

theorem update_raw_ctx (h : HandshakeHash) (buf : List Nat) :
    (h.update_raw buf).ctx = h.ctx.map (fun c => c.update buf) := by
  cases hc : h.ctx <;> simp [HandshakeHash.update_raw, hc] <;> split <;> rfl

theorem update_raw_auth (h : HandshakeHash) (buf : List Nat) :
    (h.update_raw buf).client_auth_enabled = h.client_auth_enabled := by
  cases hc : h.ctx <;> simp [HandshakeHash.update_raw, hc] <;> split <;> rfl

theorem update_raw_buffer (h : HandshakeHash) (buf : List Nat) :
    (h.update_raw buf).buffer =
      if h.ctx.isNone || h.client_auth_enabled then h.buffer ++ buf else h.buffer := by
  cases hc : h.ctx <;> simp [HandshakeHash.update_raw, hc] <;> split <;> simp_all

theorem update_raw_override (h : HandshakeHash) (buf : List Nat) :
    (h.update_raw buf).override_buffer = h.override_buffer := by
  cases hc : h.ctx <;> simp [HandshakeHash.update_raw, hc] <;> split <;> rfl

theorem update_raw_all_ctx (h : HandshakeHash) (bufs : List (List Nat)) :
    (h.update_raw_all bufs).ctx = h.ctx.map (fun c => c.update bufs.flatten) := by
  induction bufs generalizing h with
  | nil => cases hc : h.ctx <;> simp [HandshakeHash.update_raw_all, hc, DigestContext.update]
  | cons b bs ih =>
      simp only [HandshakeHash.update_raw_all, List.foldl_cons] at *
      rw [ih, update_raw_ctx]
      cases h.ctx <;> simp [DigestContext.update]

theorem update_raw_all_auth (h : HandshakeHash) (bufs : List (List Nat)) :
    (h.update_raw_all bufs).client_auth_enabled = h.client_auth_enabled := by
  induction bufs generalizing h with
  | nil => rfl
  | cons b bs ih =>
      simp only [HandshakeHash.update_raw_all, List.foldl_cons] at *
      rw [ih, update_raw_auth]

theorem update_raw_all_buffer (h : HandshakeHash) (bufs : List (List Nat)) :
    (h.update_raw_all bufs).buffer =
      if h.ctx.isNone || h.client_auth_enabled then h.buffer ++ bufs.flatten
      else h.buffer := by
  induction bufs generalizing h with
  | nil =>
      simp only [HandshakeHash.update_raw_all, List.foldl_nil, List.flatten_nil,
        List.append_nil]
      split <;> rfl
  | cons b bs ih =>
      simp only [HandshakeHash.update_raw_all, List.foldl_cons] at *
      rw [ih, update_raw_buffer, update_raw_ctx, update_raw_auth]
      cases hc : h.ctx <;> by_cases hca : h.client_auth_enabled <;> simp [hca]

theorem start_hash_ctx_none {h : HandshakeHash} (hc : h.ctx = none) (alg : Nat) :
    h.start_hash alg =
      (⟨some ⟨alg, h.buffer⟩, h.client_auth_enabled,
        if h.client_auth_enabled then h.buffer else [], h.override_buffer⟩, true) := by
  simp only [HandshakeHash.start_hash, hc, DigestContext.new, DigestContext.update]
  by_cases hca : h.client_auth_enabled <;> simp [hca]

/-! Claim theorems for the transcript-hash engine. -/

/-- C1: absorbing any byte strings before pinning and any byte strings after
pinning, the current hash after `start_hash alg` is the digest under `alg`
of exactly the concatenation of everything absorbed, in order — buffering
then catching up is hash-equivalent to incremental hashing from the start.
Holds for every digest primitive `H`. -/
theorem buffering_catchup_hash_equivalent (H : HashFn) (alg : Nat)
    (pre post : List (List Nat)) :
    ((((HandshakeHash.new.update_raw_all pre).start_hash alg).1).update_raw_all
        post).get_current_hash H =
      some (H alg (pre.flatten ++ post.flatten)) := by
  have hctx : (HandshakeHash.new.update_raw_all pre).ctx = none := by
    rw [update_raw_all_ctx]; rfl
  have hbuf : (HandshakeHash.new.update_raw_all pre).buffer = pre.flatten := by
    rw [update_raw_all_buffer]
    simp [HandshakeHash.new]
  have hauth : (HandshakeHash.new.update_raw_all pre).client_auth_enabled = false := by
    rw [update_raw_all_auth]; rfl
  rw [start_hash_ctx_none hctx]
  rw [HandshakeHash.get_current_hash, update_raw_all_ctx]
  simp [hauth, hbuf, DigestContext.update, DigestContext.finish]

/-- C2: if an algorithm is already pinned, `start_hash` with the same
algorithm returns `true` and changes nothing, and `start_hash` with a
different algorithm returns `false` and also changes nothing. -/
theorem start_hash_repin (h : HandshakeHash) (c : DigestContext) (alg : Nat)
    (hc : h.ctx = some c) :
    (c.alg = alg → h.start_hash alg = (h, true)) ∧
    (c.alg ≠ alg → h.start_hash alg = (h, false)) := by
  constructor <;> intro ha <;>
    simp [HandshakeHash.start_hash, hc, DigestContext.algorithm, ha]

/-- Witness for C2 at a concrete pinned state and algorithms 7 and 8. -/
theorem start_hash_repin_witness :
    ((HandshakeHash.new.start_hash 7).1.start_hash 7 =
      ((HandshakeHash.new.start_hash 7).1, true)) ∧
    ((HandshakeHash.new.start_hash 7).1.start_hash 8 =
      ((HandshakeHash.new.start_hash 7).1, false)) :=
  ⟨(start_hash_repin (HandshakeHash.new.start_hash 7).1 ⟨7, []⟩ 7 (by decide)).1 rfl,
   (start_hash_repin (HandshakeHash.new.start_hash 7).1 ⟨7, []⟩ 8 (by decide)).2 (by decide)⟩

/-- C7: with an algorithm pinned, collapsing via `rollup_for_hrr` and then
absorbing any further byte strings yields the same current digest as a fresh
transcript pinned to the same algorithm that first absorbs the encoding of
the synthetic transcript-hash-marker message wrapping the digest at the
moment of collapse, and then absorbs the same further byte strings. -/
theorem rollup_for_hrr_equiv (H : HashFn) (h : HandshakeHash) (c : DigestContext)
    (post : List (List Nat)) (hc : h.ctx = some c) :
    (h.rollup_for_hrr H).map
        (fun h2 => (h2.update_raw_all post).get_current_hash H) =
      some ((((HandshakeHash.new.start_hash c.alg).1.update_raw
          (build_handshake_hash_encoding (DigestContext.finish H c))).update_raw_all
            post).get_current_hash H) := by
  have hfresh : (HandshakeHash.new.start_hash c.alg).1 =
      ⟨some ⟨c.alg, []⟩, false, [], none⟩ := by
    rw [start_hash_ctx_none rfl]
    simp [HandshakeHash.new]
  simp only [HandshakeHash.rollup_for_hrr, hc, Option.map_some, hfresh]
  simp only [HandshakeHash.get_current_hash, update_raw_all_ctx, update_raw_ctx]
  simp [DigestContext.algorithm, DigestContext.new, DigestContext.update,
    DigestContext.finish]
  refine ⟨⟨c.alg, build_handshake_hash_encoding (H c.alg c.data)⟩, ?_, by simp⟩
  rw [update_raw_ctx]
  simp [DigestContext.update]

/-- Witness for C7: a transcript pinned to algorithm 5, collapsed, then one
further absorb, matches the manual fresh construction, for a concrete
digest primitive. -/
theorem rollup_for_hrr_equiv_witness :
    (((HandshakeHash.new.start_hash 5).1.rollup_for_hrr (fun a d => a :: d)).map
        (fun h2 => (h2.update_raw_all [[9]]).get_current_hash (fun a d => a :: d)) =
      some ((((HandshakeHash.new.start_hash 5).1.update_raw
          (build_handshake_hash_encoding [5])).update_raw_all
            [[9]]).get_current_hash (fun a d => a :: d))) :=
  rollup_for_hrr_equiv (fun a d => a :: d) (HandshakeHash.new.start_hash 5).1 ⟨5, []⟩
    [[9]] (by decide)

/-- C8: the lifecycle operations preserve the buffer invariant: `new`
establishes it; `update_raw` extends the ghost transcript; `start_hash`,
`abandon_client_auth` (which discards the tracked transcript) and
`set_client_auth_enabled` (legal only before pinning) preserve it;
`rollup_for_hrr` restarts the context and absorbs the marker under the same
rules; and while client-auth retention is on, every absorb grows the buffer
and the context in parallel, whether or not the context is present. -/
theorem handshake_hash_invariant (H : HashFn) (h : HandshakeHash)
    (t buf : List Nat) (alg : Nat) (hInv : h.Inv t) :
    HandshakeHash.new.Inv [] ∧
    (h.update_raw buf).Inv (t ++ buf) ∧
    ((h.start_hash alg).1).Inv t ∧
    h.abandon_client_auth.Inv [] ∧
    (h.ctx = none → h.set_client_auth_enabled.Inv t) ∧
    (∀ c h2, h.ctx = some c → h.rollup_for_hrr H = some h2 →
      h2.Inv (t ++ build_handshake_hash_encoding (DigestContext.finish H c))) ∧
    (h.client_auth_enabled = true →
      (h.update_raw buf).buffer = h.buffer ++ buf ∧
      (h.update_raw buf).ctx = h.ctx.map (fun c => c.update buf)) := by
  obtain ⟨i1, i2, i3⟩ := hInv
  refine ⟨⟨fun _ => rfl, fun hne _ => absurd rfl hne, fun _ => rfl⟩, ?_, ?_, ?_, ?_, ?_, ?_⟩
  · refine ⟨?_, ?_, ?_⟩
    · intro hn
      rw [update_raw_ctx] at hn
      have hcn : h.ctx = none := by
        cases hcc : h.ctx <;> simp [hcc] at hn ⊢
      rw [update_raw_buffer, i1 hcn]
      simp [hcn]
    · intro hn ha
      rw [update_raw_ctx] at hn
      rw [update_raw_auth] at ha
      have hcs : h.ctx ≠ none := by
        cases hcc : h.ctx <;> simp [hcc] at hn ⊢
      rw [update_raw_buffer, i2 hcs ha]
      cases hcc : h.ctx <;> simp [hcc] at hcs ⊢ <;> simp [ha]
    · intro ha
      rw [update_raw_auth] at ha
      rw [update_raw_buffer, i3 ha]
      simp [ha]
  · cases hcc : h.ctx with
    | some c =>
        have : (h.start_hash alg).1 = h := by
          simp only [HandshakeHash.start_hash, hcc]
          split <;> rfl
        rw [this]; exact ⟨i1, i2, i3⟩
    | none =>
        rw [start_hash_ctx_none hcc]
        refine ⟨fun hn => absurd hn (by simp), fun _ ha => ?_, fun ha => ?_⟩
        · simp only at ha ⊢
          simp [ha]
        · simp only at ha ⊢
          simp [ha, i1 hcc]
  · exact ⟨fun _ => rfl, fun _ _ => rfl, fun ha => absurd ha (by simp
      [HandshakeHash.abandon_client_auth])⟩
  · intro hcn
    exact ⟨fun _ => i1 hcn, fun hne _ => absurd hcn (by simpa
      [HandshakeHash.set_client_auth_enabled] using hne), fun _ => i1 hcn⟩
  · intro c h2 hcc hrr
    simp only [HandshakeHash.rollup_for_hrr, hcc, Option.some_inj] at hrr
    subst hrr
    refine ⟨fun hn => ?_, fun _ ha => ?_, fun ha => ?_⟩
    · rw [update_raw_ctx] at hn
      simp at hn
    · rw [update_raw_auth] at ha
      simp only at ha
      rw [update_raw_buffer]
      simp [ha, i2 (by simp [hcc]) ha]
    · rw [update_raw_auth] at ha
      simp only at ha
      rw [update_raw_buffer]
      simp [ha, i3 ha]
  · intro ha
    constructor
    · rw [update_raw_buffer]
      simp [ha]
    · exact update_raw_ctx h buf

/-- Witness for C8: the invariant holds concretely after one absorb from the
fresh state. -/
theorem handshake_hash_invariant_witness :
    (HandshakeHash.new.update_raw [1, 2]).Inv ([] ++ [1, 2]) :=
  (handshake_hash_invariant (fun _ d => d) HandshakeHash.new [] [1, 2] 0
    ⟨fun _ => rfl, fun hne _ => absurd rfl hne, fun _ => rfl⟩).2.1

/-! Claim theorems for record framing and payload dispatch. -/

theorem land_bytes (v1 v2 : Nat) (h1 : v1 < 256) (h2 : v2 < 256) :
    (256 * v1 + v2) &&& 65280 = 256 * v1 := by
  apply Nat.eq_of_testBit_eq
  intro i
  rw [Nat.testBit_land]
  have e1 : (256 : Nat) * v1 + v2 = 2 ^ 8 * v1 + v2 := by norm_num
  have e2 : (65280 : Nat) = 2 ^ 8 * (2 ^ 8 - 1) + 0 := by norm_num
  have e3 : (256 : Nat) * v1 = 2 ^ 8 * v1 + 0 := by norm_num
  rw [e1, e2, e3, Nat.testBit_mul_pow_two_add _ h2 i,
    Nat.testBit_mul_pow_two_add _ (by norm_num) i,
    Nat.testBit_mul_pow_two_add _ (by norm_num) i]
  by_cases hi : i < 8
  · simp [hi]
  · simp only [hi, if_false, Nat.testBit_two_pow_sub_one]
    by_cases hj : i - 8 < 8
    · simp [hj]
    · have : v1 < 2 ^ (i - 8) := by
        calc v1 < 256 := h1
        _ = 2 ^ 8 := by norm_num
        _ ≤ 2 ^ (i - 8) := Nat.pow_le_pow_right (by norm_num) (by omega)
      simp [hj, Nat.testBit_lt_two_pow this]

theorem of_u8_get_u8 {typ : ContentType} (ht : typ.known = true) :
    ContentType.of_u8 (typ.get_u8 % 256) = typ := by
  cases typ <;> simp_all [ContentType.known, ContentType.get_u8, ContentType.of_u8]

theorem outside_0x03_false {v : ProtocolVersion}
    (hv : ProtocolVersion.of_u16 v.get_u16 = v) (hhb : v.get_u16 / 256 = 3) :
    v.outside_0x03 = false := by
  cases v with
  | Unknown w =>
      have hw : w = 256 * 3 + w % 256 := by
        have := hhb
        simp only [ProtocolVersion.get_u16] at this
        omega
      simp only [ProtocolVersion.outside_0x03]
      rw [hw, land_bytes 3 (w % 256) (by norm_num) (Nat.mod_lt _ (by norm_num))]
      simp
  | TLSv1_2 => rfl
  | TLSv1_3 => rfl

/-- C3: with a complete 5-byte header, an in-range length, a recognized
content type and a version whose high byte differs from 0x03,
`OpaqueMessage::read` fails with `IllegalProtocolVersion`.  (Under the
spec-modelled `ProtocolVersion`, every non-0x03-high-byte value decodes to
the `Unknown` variant, so the guard rejects it.) -/
theorem read_rejects_bad_version (t v1 v2 l1 l2 : Nat) (rest : List Nat)
    (hv1 : v1 < 256) (hv2 : v2 < 256) (hhb : v1 ≠ 3)
    (hlen : 256 * l1 + l2 < 18432)
    (ht : (ContentType.of_u8 t).known = true) :
    OpaqueMessage.read (t :: v1 :: v2 :: l1 :: l2 :: rest) =
      .error .IllegalProtocolVersion := by
  have hV1 : 256 * v1 + v2 ≠ 0x0303 := by omega
  have hV2 : 256 * v1 + v2 ≠ 0x0304 := by omega
  have hmask : (256 * v1 + v2) &&& 65280 ≠ 768 := by
    rw [land_bytes v1 v2 hv1 hv2]
    omega
  simp [OpaqueMessage.read, readU8, readU16, OpaqueMessage.MAX_PAYLOAD,
    ProtocolVersion.of_u16, ProtocolVersion.outside_0x03, hV1, hV2, hmask, ht,
    Nat.not_le.mpr hlen]

/-- Witness for C3: version 0x0400 on an otherwise-valid handshake header is
rejected as an illegal protocol version. -/
theorem read_rejects_bad_version_witness :
    OpaqueMessage.read [22, 4, 0, 0, 0] = .error .IllegalProtocolVersion :=
  read_rejects_bad_version 22 4 0 0 0 [] (by decide) (by decide) (by decide)
    (by decide) (by decide)

/-- C5: with a complete 5-byte header, `OpaqueMessage::read` returns the
oversize error exactly when the declared length is at least 18432; the
length check precedes every other check, so no smaller length ever produces
`IllegalLength`. -/
theorem read_oversize_iff (t v1 v2 l1 l2 : Nat) (rest : List Nat) :
    OpaqueMessage.read (t :: v1 :: v2 :: l1 :: l2 :: rest) = .error .IllegalLength ↔
      256 * l1 + l2 ≥ 18432 := by
  simp only [OpaqueMessage.read, readU8, readU16, OpaqueMessage.MAX_PAYLOAD]
  constructor
  · intro h
    by_contra hlt
    rw [if_neg (by omega)] at h
    split at h
    · simp at h
    · split at h
      · simp at h
      · split at h <;> simp at h
  · intro h
    rw [if_pos (by omega)]

/-- Counterexample for C4 as stated: the record with content type
`Handshake`, version `Unknown 0x0303` (high byte 0x03, so inside the claim's
scope) and empty payload does not survive the round trip — decoding its
encoding yields the named version `TLSv1_2` instead. -/
theorem round_trip_counterexample :
    (ContentType.Handshake.known = true) ∧
    ((ProtocolVersion.Unknown 0x0303).get_u16 / 256 = 3) ∧
    ((0 : Nat) ≤ 18431) ∧
    OpaqueMessage.read
        (OpaqueMessage.encode ⟨.Handshake, .Unknown 0x0303, ⟨[]⟩⟩) ≠
      .ok (⟨.Handshake, .Unknown 0x0303, ⟨[]⟩⟩, []) := by
  refine ⟨rfl, rfl, by omega, ?_⟩
  intro h
  have he : OpaqueMessage.read
      (OpaqueMessage.encode ⟨.Handshake, .Unknown 0x0303, ⟨[]⟩⟩) =
        .ok ((⟨.Handshake, .TLSv1_2, ⟨[]⟩⟩ : OpaqueMessage), []) := rfl
  rw [he] at h
  simp at h

/-- C4 (amended): decode-of-encode returns the original record and consumes
the whole input, for every record whose content type is recognized, whose
payload length is at most 18431, and whose version has high byte 0x03 and is
in canonical decoded form — i.e. not the `Unknown` variant carrying the wire
value of a named version, which re-decodes to the named variant instead. -/
theorem round_trip_amended (m : OpaqueMessage)
    (ht : m.typ.known = true)
    (hv : ProtocolVersion.of_u16 m.version.get_u16 = m.version)
    (hhb : m.version.get_u16 / 256 = 3)
    (hlen : m.payload.bytes.length ≤ 18431) :
    OpaqueMessage.read (OpaqueMessage.encode m) = .ok (m, []) := by
  have hVlt : m.version.get_u16 < 1024 := by omega
  have henc : OpaqueMessage.encode m =
      m.typ.get_u8 % 256 :: (m.version.get_u16 / 256 % 256) ::
        (m.version.get_u16 % 256) :: (m.payload.bytes.length / 256 % 256) ::
        (m.payload.bytes.length % 256) :: m.payload.bytes := by
    simp [OpaqueMessage.encode, Payload.encode, encodeU16, encodeU8]
  rw [henc]
  simp only [OpaqueMessage.read, readU8, readU16]
  have hVr : 256 * (m.version.get_u16 / 256 % 256) + m.version.get_u16 % 256 =
      m.version.get_u16 := by omega
  have hLr : 256 * (m.payload.bytes.length / 256 % 256) +
      m.payload.bytes.length % 256 = m.payload.bytes.length := by omega
  rw [hVr, hLr, hv, of_u8_get_u8 ht]
  rw [if_neg (by simp only [OpaqueMessage.MAX_PAYLOAD]; omega)]
  rw [if_neg (by simp [ht])]
  rw [if_neg (by simp [outside_0x03_false hv hhb])]
  simp [readerSub, Payload.read]

/-- Witness for C4 (amended): a handshake record with version `TLSv1_2` and
a two-byte payload round-trips. -/
theorem round_trip_amended_witness :
    OpaqueMessage.read (OpaqueMessage.encode ⟨.Handshake, .TLSv1_2, ⟨[9, 8]⟩⟩) =
      .ok ((⟨.Handshake, .TLSv1_2, ⟨[9, 8]⟩⟩ : OpaqueMessage), []) :=
  round_trip_amended ⟨.Handshake, .TLSv1_2, ⟨[9, 8]⟩⟩ (by decide) (by decide)
    (by decide) (by decide)

/-- C6: for content type `Handshake`, `MessagePayload::new` never returns an
error, whatever the structured handshake decoder does; when that decoder
fails, the original payload bytes are wrapped unchanged as
`TLS12EncryptedHandshake`. -/
theorem handshake_payload_never_fails (codecs : Codecs) (vers : ProtocolVersion)
    (payload : Payload) :
    (∃ m, MessagePayload.new codecs .Handshake vers payload = .ok m) ∧
    (codecs.hsReadVersion vers payload.bytes = none →
      MessagePayload.new codecs .Handshake vers payload =
        .ok (.TLS12EncryptedHandshake payload)) := by
  constructor
  · cases hr : codecs.hsReadVersion vers payload.bytes with
    | none =>
        exact ⟨.TLS12EncryptedHandshake payload,
          by simp [MessagePayload.new, hr, Option.or]⟩
    | some p =>
        exact ⟨.Handshake p.1, by simp [MessagePayload.new, hr, Option.or]⟩
  · intro hr
    simp [MessagePayload.new, hr, Option.or]

/-- Witness for C6: with a decoder that fails on these bytes, the payload is
wrapped unchanged. -/
theorem handshake_payload_never_fails_witness :
    MessagePayload.new sampleCodecs .Handshake .TLSv1_2 ⟨[1, 2, 3]⟩ =
      .ok (.TLS12EncryptedHandshake ⟨[1, 2, 3]⟩) :=
  (handshake_payload_never_fails sampleCodecs .TLSv1_2 ⟨[1, 2, 3]⟩).2 rfl

/-- C9: whenever a structured decoder for `Alert`, `ChangeCipherSpec` or
`Heartbeat` succeeds on a prefix of the payload, `MessagePayload::new`
succeeds, whatever bytes remain unconsumed — the reader's leftover is never
inspected. -/
theorem trailing_bytes_tolerated (codecs : Codecs) (vers : ProtocolVersion)
    (b1 b2 b3 r1 r2 r3 : List Nat) (a : AlertMessagePayload)
    (c : ChangeCipherSpecPayload) (hb : HeartbeatPayload) :
    (codecs.alertRead b1 = some (a, r1) →
      MessagePayload.new codecs .Alert vers ⟨b1⟩ = .ok (.Alert a)) ∧
    (ChangeCipherSpecPayload.read b2 = some (c, r2) →
      MessagePayload.new codecs .ChangeCipherSpec vers ⟨b2⟩ =
        .ok (.ChangeCipherSpec c)) ∧
    (codecs.heartbeatRead b3 = some (hb, r3) →
      MessagePayload.new codecs .Heartbeat vers ⟨b3⟩ = .ok (.Heartbeat hb)) := by
  refine ⟨fun h => ?_, fun h => ?_, fun h => ?_⟩ <;> simp [MessagePayload.new, h]

/-- Witness for C9: each of the three decoders succeeds with a nonempty
unconsumed remainder, and dispatch still returns `ok`. -/
theorem trailing_bytes_tolerated_witness :
    MessagePayload.new sampleCodecs .Alert .TLSv1_2 ⟨[10, 20, 30]⟩ =
      .ok (.Alert ⟨10, 20⟩) ∧
    MessagePayload.new sampleCodecs .ChangeCipherSpec .TLSv1_2 ⟨[1, 99]⟩ =
      .ok (.ChangeCipherSpec ⟨⟩) ∧
    MessagePayload.new sampleCodecs .Heartbeat .TLSv1_2 ⟨[7, 8]⟩ =
      .ok (.Heartbeat ⟨[7]⟩) :=
  ⟨(trailing_bytes_tolerated sampleCodecs .TLSv1_2 [10, 20, 30] [1, 99] [7, 8]
      [30] [99] [8] ⟨10, 20⟩ ⟨⟩ ⟨[7]⟩).1 rfl,
   (trailing_bytes_tolerated sampleCodecs .TLSv1_2 [10, 20, 30] [1, 99] [7, 8]
      [30] [99] [8] ⟨10, 20⟩ ⟨⟩ ⟨[7]⟩).2.1 rfl,
   (trailing_bytes_tolerated sampleCodecs .TLSv1_2 [10, 20, 30] [1, 99] [7, 8]
      [30] [99] [8] ⟨10, 20⟩ ⟨⟩ ⟨[7]⟩).2.2 rfl⟩

/-- C10: `ChangeCipherSpecPayload::read` succeeds on every nonempty payload
whatever the first byte's value (and fails on the empty payload), while
`encode` always emits exactly the single byte 1; so decode is not the
inverse of encode on any one-byte payload other than 0x01. -/
theorem ccs_read_any_encode_one (b : Nat) (rest : List Nat) :
    ChangeCipherSpecPayload.read (b :: rest) = some (⟨⟩, rest) ∧
    ChangeCipherSpecPayload.read [] = none ∧
    ChangeCipherSpecPayload.encode ⟨⟩ [] = [1] ∧
    (b ≠ 1 → ChangeCipherSpecPayload.encode ⟨⟩ [] ≠ [b]) := by
  refine ⟨rfl, rfl, rfl, fun hb h => ?_⟩
  simp only [ChangeCipherSpecPayload.encode, encodeU8, List.nil_append] at h
  have : (1 : Nat) % 256 = b := by
    have := congrArg (fun l => l.headI) h
    simpa using this
  omega

/-- Witness for C10 at payload byte 2: decoding succeeds but re-encoding
yields 0x01, not 0x02. -/
theorem ccs_read_any_encode_one_witness :
    ChangeCipherSpecPayload.read [2] = some (⟨⟩, []) ∧
    ChangeCipherSpecPayload.encode ⟨⟩ [] ≠ [2] :=
  ⟨(ccs_read_any_encode_one 2 []).1, (ccs_read_any_encode_one 2 []).2.2.2 (by decide)⟩
